import Mathlib

/-
  Verification development for the LR (lorry-receipt) operations console.

  The definitions below are a shallow embedding of the TypeScript sources:
    * `types.ts`                    — the data model,
    * `services/lrService.ts`       — booking list / report / settlement queries
                                      and the transporter-assignment operation,
    * `services/authService.ts`     — login and profile lookup (the variant that
                                      defines `getUserProfile`),
    * `components/AuthContext.tsx`  — session bootstrap, auth-event handling and
                                      the idle-timeout logout,
    * `services/supabaseClient.ts`  — the pre-boot stale-token sweep.

  The remote store (Supabase) is modelled as an explicit list of rows plus a
  boolean failure flag; query chains become function pipelines over that list.
  JavaScript string truthiness (`if (x)`) is modelled explicitly: an optional
  string is truthy when present and non-empty.  Monetary values are embedded as
  rationals (the numeric parse of the `charges` string; `none` models a
  non-numeric string, which `parseFloat(...) || 0` turns into 0).
-/

namespace LRVerify

/-- Character comparison by code point, used for lexicographic string order. -/
def chLt (a b : Char) : Bool := a.val.toNat < b.val.toNat

/-- Lexicographic less-or-equal on character lists (kernel-reducible). -/
def listLe : List Char → List Char → Bool
  | [], _ => true
  | _ :: _, [] => false
  | a :: as, b :: bs => if a = b then listLe as bs else chLt a b

/-- Lexicographic less-or-equal on strings; ISO-8601 timestamps compare
chronologically under this order, which is how the store compares the
`date` / `assignedAt` columns in `gte` / `lte` filters. -/
def strLe (a b : String) : Bool := listLe a.data b.data

/-- JavaScript truthiness of an optional string: present and non-empty. -/
def optTruthy : Option String → Bool
  | some s => s ≠ ""
  | none => false

/-- Does `hay` contain `pat` as a contiguous sublist? -/
def hasSubList (hay pat : List Char) : Bool :=
  match hay with
  | [] => pat.isEmpty
  | _ :: t => pat.isPrefixOf hay || hasSubList t pat

/-- Case-insensitive containment, modelling the store's `ilike '%pat%'`. -/
def ilikeMatch (hay pat : String) : Bool :=
  hasSubList hay.toLower.data pat.toLower.data

/-- Payment direction of a booking (`paymentStatus: 'Paid' | 'To Pay'`). -/
inductive PaymentStatus where
  | paid
  | toPay
deriving DecidableEq

/-- Row status (`status: 'Active' | 'Inactive'`). -/
inductive AccountStatus where
  | active
  | inactive
deriving DecidableEq

/-- Operator role (`UserRole = 'developer' | 'admin' | 'staff'`). -/
inductive UserRole where
  | developer
  | admin
  | staff
deriving DecidableEq

/-- Structure `SenderReceiverDetails` from `types.ts`. -/
structure SenderReceiverDetails where
  name : String
  mobile : String
  address : String
deriving DecidableEq

/-- Structure `ShipmentDetails` from `types.ts`. -/
structure ShipmentDetails where
  fromLocation : String
  toLocation : String
  description : String
  weight : String
  packages : String
deriving DecidableEq

/-- Structure `Transporter` from `types.ts`; the commission percent is embedded as ℚ. -/
structure Transporter where
  id : String
  name : String
  commissionPercent : ℚ
  status : AccountStatus
deriving DecidableEq

/-- Structure `LR` from `types.ts`.  Field `charges` is the numeric parse of the charges
string (`none` when the string is not numeric); the transporter-derived
fields are `Option`s mirroring the nullable columns. -/
structure LR where
  id : String
  lrNumber : String
  branch : String
  date : String
  sender : SenderReceiverDetails
  receiver : SenderReceiverDetails
  shipment : ShipmentDetails
  charges : Option ℚ
  paymentStatus : PaymentStatus
  createdBy : String
  transporterId : Option String
  transporterName : Option String
  transporterCommissionPercent : Option ℚ
  transporterCommissionAmount : Option ℚ
  netPayableToTransporter : Option ℚ
  assignedAt : Option String
deriving DecidableEq

/-- Structure `User` from `types.ts` (fields consumed by the embedded services). -/
structure User where
  id : String
  username : String
  name : String
  role : UserRole
  branch : String
  status : AccountStatus
deriving DecidableEq

/-- Outcome of one remote query: rows, or a thrown store error. -/
inductive QueryResult (α : Type) where
  | ok (val : α)
  | err
deriving DecidableEq

/-- A service call's result together with the number of remote round trips it
performed (0 when the service answered without contacting the store). -/
structure Fetched (α : Type) where
  result : QueryResult α
  remoteCalls : Nat

/-- Stable insertion of a row into a date-descending ordered list. -/
def insertByDateDesc (lr : LR) : List LR → List LR
  | [] => [lr]
  | h :: t => if strLe h.date lr.date then lr :: h :: t else h :: insertByDateDesc lr t

/-- Embeds `order('date', ...)` with descending dates: stable sort, newest date first. -/
def orderByDateDesc : List LR → List LR
  | [] => []
  | h :: t => insertByDateDesc h (orderByDateDesc t)

/-- Membership is invariant under the date ordering step. -/
theorem mem_insertByDateDesc (a lr : LR) (l : List LR) :
    a ∈ insertByDateDesc lr l ↔ a = lr ∨ a ∈ l := by
  induction l with
  | nil => simp [insertByDateDesc]
  | cons h t ih =>
      by_cases hc : strLe h.date lr.date = true
      · simp [insertByDateDesc, hc]
      · simp only [insertByDateDesc, if_neg hc, List.mem_cons, ih]
        tauto

/-- Membership is invariant under `order('date', …)`. -/
theorem mem_orderByDateDesc (a : LR) (l : List LR) :
    a ∈ orderByDateDesc l ↔ a ∈ l := by
  induction l with
  | nil => simp [orderByDateDesc]
  | cons h t ih => simp [orderByDateDesc, mem_insertByDateDesc, ih]

namespace lrService

/-- Caller-supplied filters of `lrService.getLRList` (`filters: any`); each
field is optional, and the empty string is JavaScript-falsy. -/
structure ListFilters where
  branch : Option String
  search : Option String
  date : Option String

/-- The `.or(lrNumber.ilike…, sender->>name.ilike…, receiver->>name.ilike…)`
search disjunction of `getLRList`. -/
def searchHit (s : String) (lr : LR) : Bool :=
  ilikeMatch lr.lrNumber s || ilikeMatch lr.sender.name s || ilikeMatch lr.receiver.name s

/-- Day-range date filter `gte date+"T00:00:00"` / `lte date+"T23:59:59"`. -/
def onDay (d : String) (lr : LR) : Bool :=
  strLe (d ++ "T00:00:00") lr.date && strLe lr.date (d ++ "T23:59:59")

/-- Branch-security step of `getLRList`: enforce the user's branch unless it
is the `'ALL'` sentinel, in which case a truthy caller-supplied branch filter
applies. -/
def branchScopeList (u : User) (fb : Option String) (db : List LR) : List LR :=
  if u.branch ≠ "ALL" then db.filter (fun lr => lr.branch == u.branch)
  else match fb with
       | some b => if b ≠ "" then db.filter (fun lr => lr.branch == b) else db
       | none => db

/-- Search step of `getLRList` (applied when the filter is truthy). -/
def searchScope (os : Option String) (l : List LR) : List LR :=
  match os with
  | some s => if s ≠ "" then l.filter (searchHit s) else l
  | none => l

/-- Date step of `getLRList` (applied when the filter is truthy). -/
def dateScope (od : Option String) (l : List LR) : List LR :=
  match od with
  | some d => if d ≠ "" then l.filter (onDay d) else l
  | none => l

/-- The row pipeline of `getLRList` (branch security, search, date, order). -/
def listRows (u : User) (db : List LR) (fl : ListFilters) : List LR :=
  orderByDateDesc (dateScope fl.date (searchScope fl.search (branchScopeList u fl.branch db)))

/-- Embeds `lrService.getLRList(page, limit, filters)`: returns `{data: [], count: 0}`
without touching the store when no current user is set; otherwise one remote
query returning a page (`range(from, from+limit-1)`, inclusive) of the ordered
rows plus the exact count of matching rows. -/
def getLRList (user : Option User) (db : List LR) (storeFails : Bool)
    (page limit : Nat) (fl : ListFilters) : Fetched (List LR × Nat) :=
  match user with
  | none => ⟨.ok ([], 0), 0⟩
  | some u =>
      if storeFails then ⟨.err, 1⟩
      else
        let rows := listRows u db fl
        ⟨.ok ((rows.drop (page * limit)).take limit, rows.length), 1⟩

/-- Branch-security step of `getReportData`: like `branchScopeList`, but the
caller filter additionally carries an `'All'` sentinel meaning "no filter". -/
def branchScopeReport (u : User) (fb : Option String) (db : List LR) : List LR :=
  if u.branch ≠ "ALL" then db.filter (fun lr => lr.branch == u.branch)
  else match fb with
       | some b => if b ≠ "" ∧ b ≠ "All" then db.filter (fun lr => lr.branch == b) else db
       | none => db

/-- The row pipeline of `getReportData` (branch security with the `'All'`
sentinel, exact-day date filter, order). -/
def reportRows (u : User) (db : List LR) (branchF : Option String) (date : String) :
    List LR :=
  orderByDateDesc ((branchScopeReport u branchF db).filter (onDay date))

/-- Embeds `lrService.getReportData` over branch filter and report date. -/
def getReportData (user : Option User) (db : List LR) (storeFails : Bool)
    (branchF : Option String) (date : String) : Fetched (List LR) :=
  match user with
  | none => ⟨.ok [], 0⟩
  | some u =>
      if storeFails then ⟨.err, 1⟩
      else ⟨.ok (reportRows u db branchF date), 1⟩

/-- Caller-supplied filters of `getTransporterReportData`. -/
structure TRFilters where
  transporterId : Option String
  branch : Option String
  branchName : Option String
  startDate : String
  endDate : String

/-- The server-side part of the transporter report query: only assigned
records (`not('transporterId', 'is', null)`), date range, and the optional
transporter filter (applied when truthy and not the `'All'` sentinel). -/
def trServerFilter (f : TRFilters) (lr : LR) : Bool :=
  lr.transporterId.isSome
  && strLe (f.startDate ++ "T00:00:00") lr.date
  && strLe lr.date (f.endDate ++ "T23:59:59")
  && (match f.transporterId with
      | some tid => if tid ≠ "" ∧ tid ≠ "All" then lr.transporterId == some tid else true
      | none => true)

/-- Embeds `targetBranchCode`: the user's branch when it is not `'ALL'`, else the
caller's branch filter unless that is the `'All'` sentinel.  The result is
only acted on when truthy (present and non-empty). -/
def trTargetBranchCode (u : User) (f : TRFilters) : Option String :=
  if u.branch ≠ "ALL" then some u.branch
  else match f.branch with
       | some b => if b ≠ "All" then some b else none
       | none => none

/-- The client-side branch-responsibility filter: origin pays when `Paid`,
destination (matched against the truthy `branchName` display name) pays when
`To Pay`. -/
def trResponsible (code : String) (f : TRFilters) (lr : LR) : Bool :=
  let isOrigin := lr.branch == code
  let isDestination :=
    match f.branchName with
    | some bn => bn ≠ "" && lr.shipment.toLocation == bn
    | none => false
  match lr.paymentStatus with
  | .paid => isOrigin
  | .toPay => isDestination

/-- The row pipeline of `getTransporterReportData`: server filter and order,
then the in-memory branch-responsibility filter when a branch scope is
truthy. -/
def trRows (u : User) (db : List LR) (f : TRFilters) : List LR :=
  let rawData := orderByDateDesc (db.filter (trServerFilter f))
  match trTargetBranchCode u f with
  | some code => if code ≠ "" then rawData.filter (trResponsible code f) else rawData
  | none => rawData

/-- Embeds `lrService.getTransporterReportData(filters)`. -/
def getTransporterReportData (user : Option User) (db : List LR) (storeFails : Bool)
    (f : TRFilters) : Fetched (List LR) :=
  match user with
  | none => ⟨.ok [], 0⟩
  | some u =>
      if storeFails then ⟨.err, 1⟩
      else ⟨.ok (trRows u db f), 1⟩

/-- Branch-security step of `getUnassignedLRs` / `getRecentlyAssignedLRs`
(no caller filter exists on these queries). -/
def branchScopeOnly (u : User) (l : List LR) : List LR :=
  if u.branch ≠ "ALL" then l.filter (fun lr => lr.branch == u.branch) else l

/-- The row pipeline of `getUnassignedLRs`: `is('transporterId', null)`, then
branch security, then order. -/
def unassignedRows (u : User) (db : List LR) : List LR :=
  orderByDateDesc (branchScopeOnly u (db.filter (fun lr => lr.transporterId.isNone)))

/-- Embeds `lrService.getUnassignedLRs()`. -/
def getUnassignedLRs (user : Option User) (db : List LR) (storeFails : Bool) :
    Fetched (List LR) :=
  match user with
  | none => ⟨.ok [], 0⟩
  | some u =>
      if storeFails then ⟨.err, 1⟩
      else ⟨.ok (unassignedRows u db), 1⟩

/-- The row pipeline of `getRecentlyAssignedLRs`: assigned records whose
`assignedAt` is at or after the 24-hours-ago cutoff (a NULL `assignedAt`
never satisfies the store's `gte`), then branch security, then order. -/
def recentlyAssignedRows (u : User) (db : List LR) (cutoff : String) : List LR :=
  orderByDateDesc (branchScopeOnly u (db.filter (fun lr =>
    lr.transporterId.isSome
    && (match lr.assignedAt with
        | some a => strLe cutoff a
        | none => false))))

/-- Embeds `lrService.getRecentlyAssignedLRs()`; `cutoff` stands for the computed
`twentyFourHoursAgo` timestamp. -/
def getRecentlyAssignedLRs (user : Option User) (db : List LR) (storeFails : Bool)
    (cutoff : String) : Fetched (List LR) :=
  match user with
  | none => ⟨.ok [], 0⟩
  | some u =>
      if storeFails then ⟨.err, 1⟩
      else ⟨.ok (recentlyAssignedRows u db cutoff), 1⟩

/-- Embeds `lrService.assignTransporterToLRs(lrIds, transporter)`: for each selected
booking, `lrAmount = parseFloat(charges) || 0`, commission =
`lrAmount * commissionPercent / 100`, net = `lrAmount - commission`; all
transporter fields and the assignment timestamp are written together. -/
def assignTransporterToLRs (db : List LR) (lrIds : List String) (t : Transporter)
    (now : String) : List LR :=
  db.map fun lr =>
    if lrIds.contains lr.id then
      let lrAmount := lr.charges.getD 0
      let commissionAmount := lrAmount * t.commissionPercent / 100
      let netPayable := lrAmount - commissionAmount
      { lr with
          transporterId := some t.id
          transporterName := some t.name
          transporterCommissionPercent := some t.commissionPercent
          transporterCommissionAmount := some commissionAmount
          netPayableToTransporter := some netPayable
          assignedAt := some now }
    else lr

/-- Embeds `padStart(5, '0')` applied to the branch sequence number. -/
def padStart5 (s : String) : String :=
  String.mk (List.replicate (5 - s.length) '0') ++ s

/-- Embeds `lrService.createLR(lrData)`: a freshly created booking carries no
transporter and no derived settlement fields. -/
def createLR (db : List LR) (currentUser : Option User) (rowId now : String)
    (branch : String) (sender receiver : SenderReceiverDetails)
    (shipment : ShipmentDetails) (charges : Option ℚ)
    (paymentStatus : PaymentStatus) : LR :=
  let count := (db.filter (fun lr => lr.branch == branch)).length
  { id := rowId
    lrNumber := branch ++ "-" ++ padStart5 (toString (count + 1))
    branch := branch
    date := now
    sender := sender
    receiver := receiver
    shipment := shipment
    charges := charges
    paymentStatus := paymentStatus
    createdBy := (match currentUser with | some u => u.name | none => "System User")
    transporterId := none
    transporterName := none
    transporterCommissionPercent := none
    transporterCommissionAmount := none
    netPayableToTransporter := none
    assignedAt := none }

end lrService

namespace authService

/-- The remote auth provider plus the `internal_user_data` table, as one
environment: whether `signInWithPassword` accepts the supplied credentials,
the authenticated user id it would return, and the profile rows. -/
structure AuthBackend where
  signInOk : Bool
  authUserId : String
  profiles : List User

/-- Errors thrown by `authService.login`. -/
inductive AuthError where
  | invalidCredentials
  | inactiveOrMissing
deriving DecidableEq

/-- Embeds the `.single()` semantics: succeeds exactly when the filtered selection holds
one row. -/
def findSingle (p : User → Bool) (profiles : List User) : Option User :=
  match profiles.filter p with
  | [u] => some u
  | _ => none

/-- Result of `authService.login`, recording whether the remote session was
signed back out before the error was thrown. -/
structure LoginResult where
  outcome : QueryResult User
  thrown : Option AuthError
  remoteSignOutCalled : Bool
deriving DecidableEq

/-- Embeds `authService.login(email, password)`: authenticate remotely, then fetch
the profile filtered by id and `status = 'Active'` with `.single()`; on a
missing/inactive profile, sign the remote session out and throw. -/
def login (b : AuthBackend) : LoginResult :=
  if ¬ b.signInOk then
    ⟨.err, some .invalidCredentials, false⟩
  else
    match findSingle (fun u => u.id == b.authUserId && u.status == .active) b.profiles with
    | some u => ⟨.ok u, none, false⟩
    | none => ⟨.err, some .inactiveOrMissing, true⟩

/-- Embeds `authService.getUserProfile(userId)` (the variant used at session
restore): selects the profile row by id only — deliberately without a status
filter ("session restoration trusts the Supabase token") — returning `none`
when no single row matches. -/
def getUserProfile (profiles : List User) (userId : String) : Option User :=
  findSingle (fun u => u.id == userId) profiles

end authService

namespace AuthContext

/-- Constant `TIMEOUT_MS = 10 * 60 * 1000` — the fixed idle-timeout window. -/
def TIMEOUT_MS : Nat := 10 * 60 * 1000

/-- Outcome of `checkSessionGlobally`: the restored profile (if any), whether
a remote sign-out was issued, and whether the cross-tab activity timestamp
was refreshed. -/
structure RestoreResult where
  profile : Option User
  remoteSignOutCalled : Bool
  activityStamped : Bool
deriving DecidableEq

/-- Embeds `checkSessionGlobally()`: fetch the remote session; when a session user
exists, look its profile up with `authService.getUserProfile` and, when a
profile comes back, stamp the activity timestamp and return it; otherwise
sign out remotely and return null. -/
def checkSessionGlobally (sessionUserId : Option String) (profiles : List User) :
    RestoreResult :=
  match sessionUserId with
  | none => ⟨none, false, false⟩
  | some uid =>
      match authService.getUserProfile profiles uid with
      | some p => ⟨some p, false, true⟩
      | none => ⟨none, true, false⟩

/-- Embeds `AuthProvider.login`: delegate to `authService.login`; `applyUser` runs
only on success, so a thrown login leaves the Session Store untouched. -/
def contextLogin (store : Option User) (b : authService.AuthBackend) :
    Option User × authService.LoginResult :=
  let r := authService.login b
  match r.outcome with
  | .ok u => (some u, r)
  | .err => (store, r)

/-- Observable tab state around the idle-timeout logout: the persisted
cross-tab activity timestamp, the Session Store identity, the remote session,
and whether a local idle timer is scheduled. -/
structure IdleTabState where
  persistedActivity : Option Nat
  sessionUser : Option User
  remoteSignedIn : Bool
  timerScheduled : Bool
deriving DecidableEq

/-- Embeds `logoutDueToInactivity`, the handler the idle timer fires: it removes
the persisted activity key, signs out remotely, and clears the session.  The
handler takes the current persisted timestamp and clock as arguments to make
explicit that it reads neither. -/
def onIdleTimerFire (_s : IdleTabState) (_now : Nat) : IdleTabState :=
  { persistedActivity := none
    sessionUser := none
    remoteSignedIn := false
    timerScheduled := false }

/-- The pre-boot stale-token sweep of `supabaseClient.ts`: before the auth
client initializes, if the persisted activity timestamp is older than the
timeout window, both the activity key and the persisted auth token are wiped.
Returns (token still present, activity key still present). -/
def preBootSweep (lastActivity : Option Nat) (now : Nat) (tokenPresent : Bool) :
    Bool × Option Nat :=
  match lastActivity with
  | some t =>
      if now - t > TIMEOUT_MS then (false, none)
      else (tokenPresent, some t)
  | none => (tokenPresent, none)

/-- Constant `FAILSAFE_MS = 5000` — the bootstrap fail-safe ceiling. -/
def FAILSAFE_MS : Nat := 5000

/-- Auth-view state during bootstrap: the Session Store identity, the
`loading` flag, and whether the fail-safe timer is still armed. -/
structure InitState where
  user : Option User
  loading : Bool
  failSafeArmed : Bool
deriving DecidableEq

/-- Bootstrap events: the fail-safe timer firing at `FAILSAFE_MS`, the
session-restore promise resolving with a profile or null, or the
initialization throwing. -/
inductive InitEvent where
  | failSafeFire
  | promiseResolved (profile : Option User)
  | promiseThrew
deriving DecidableEq

/-- State at the start of `initialize()`: `setLoading(true)` has run and the
fail-safe timeout is armed. -/
def initStart : InitState := ⟨none, true, true⟩

/-- One bootstrap transition of `AuthProvider`: the fail-safe forces the
unauthenticated state with `loading = false`; a resolution applies the
profile (or clears the session), sets `loading = false` and clears the
fail-safe; a thrown error clears the session with `loading = false`. -/
def initStep : InitState → InitEvent → InitState
  | s, .failSafeFire => if s.failSafeArmed then ⟨none, false, false⟩ else s
  | _, .promiseResolved p => ⟨p, false, false⟩
  | _, .promiseThrew => ⟨none, false, false⟩

/-- Auth-provider events delivered to `onAuthStateChange`, with the session
user id they carry. -/
inductive AuthEvent where
  | signedIn (userId : Option String)
  | tokenRefreshed (userId : Option String)
  | signedOut
  | userDeleted
deriving DecidableEq

/-- Listener state: the Session Store identity, the last-seen identity id
(`lastUserIdRef`), and a counter of profile-fetch invocations. -/
structure ListenerState where
  user : Option User
  lastUserId : Option String
  fetchCount : Nat
deriving DecidableEq

/-- Embeds `clearSession()` inside the listener (the fetch counter is bookkeeping,
not program state). -/
def clearListener (s : ListenerState) : ListenerState :=
  { user := none, lastUserId := none, fetchCount := s.fetchCount }

/-- One step of the `onAuthStateChange` handler.  On `SIGNED_IN`, the profile
fetch runs only when the event's user id differs from the last-seen id;
`applyUser` records the fetched profile's id as last-seen.  `TOKEN_REFRESHED`
clears the session only when the event carries no user; `SIGNED_OUT` and
`USER_DELETED` always clear. -/
def onAuthStateChange (profiles : List User) (s : ListenerState) :
    AuthEvent → ListenerState
  | .signedIn uid =>
      match uid with
      | some u =>
          if s.lastUserId ≠ some u then
            match authService.getUserProfile profiles u with
            | some p => ⟨some p, some p.id, s.fetchCount + 1⟩
            | none => clearListener { s with fetchCount := s.fetchCount + 1 }
          else s
      | none => s
  | .tokenRefreshed uid =>
      match uid with
      | some _ => s
      | none => clearListener s
  | .signedOut => clearListener s
  | .userDeleted => clearListener s

end AuthContext

/-! Helper lemmas about the query pipelines. -/

theorem searchScope_subset (os : Option String) (l : List LR) :
    lrService.searchScope os l ⊆ l := by
  unfold lrService.searchScope
  split
  · split
    · exact List.filter_subset' _
    · exact fun _ h => h
  · exact fun _ h => h

theorem dateScope_subset (od : Option String) (l : List LR) :
    lrService.dateScope od l ⊆ l := by
  unfold lrService.dateScope
  split
  · split
    · exact List.filter_subset' _
    · exact fun _ h => h
  · exact fun _ h => h

theorem branchScopeList_branch_of_ne (u : User) (fb : Option String) (db : List LR)
    (hNE : u.branch ≠ "ALL") :
    ∀ x ∈ lrService.branchScopeList u fb db, x.branch = u.branch := by
  intro x hx
  unfold lrService.branchScopeList at hx
  rw [if_pos hNE] at hx
  simpa using (List.mem_filter.mp hx).2

theorem branchScopeList_ignores_filter (u : User) (fb fb' : Option String) (db : List LR)
    (hNE : u.branch ≠ "ALL") :
    lrService.branchScopeList u fb db = lrService.branchScopeList u fb' db := by
  unfold lrService.branchScopeList
  rw [if_pos hNE, if_pos hNE]

theorem branchScopeList_all (u : User) (db : List LR) (b : String)
    (hALL : u.branch = "ALL") (hb : b ≠ "") :
    ∀ x ∈ lrService.branchScopeList u (some b) db, x.branch = b := by
  intro x hx
  unfold lrService.branchScopeList at hx
  rw [if_neg (by simp [hALL])] at hx
  have hx' : x ∈ (if b ≠ "" then db.filter (fun lr => lr.branch == b) else db) := hx
  rw [if_pos hb] at hx'
  simpa using (List.mem_filter.mp hx').2

theorem branchScopeReport_branch_of_ne (u : User) (fb : Option String) (db : List LR)
    (hNE : u.branch ≠ "ALL") :
    ∀ x ∈ lrService.branchScopeReport u fb db, x.branch = u.branch := by
  intro x hx
  unfold lrService.branchScopeReport at hx
  rw [if_pos hNE] at hx
  simpa using (List.mem_filter.mp hx).2

theorem branchScopeReport_ignores_filter (u : User) (fb fb' : Option String) (db : List LR)
    (hNE : u.branch ≠ "ALL") :
    lrService.branchScopeReport u fb db = lrService.branchScopeReport u fb' db := by
  unfold lrService.branchScopeReport
  rw [if_pos hNE, if_pos hNE]

theorem branchScopeReport_all (u : User) (db : List LR) (b : String)
    (hALL : u.branch = "ALL") (hb : b ≠ "") (hbAll : b ≠ "All") :
    ∀ x ∈ lrService.branchScopeReport u (some b) db, x.branch = b := by
  intro x hx
  unfold lrService.branchScopeReport at hx
  rw [if_neg (by simp [hALL])] at hx
  have hx' : x ∈ (if b ≠ "" ∧ b ≠ "All" then db.filter (fun lr => lr.branch == b) else db) := hx
  rw [if_pos ⟨hb, hbAll⟩] at hx'
  simpa using (List.mem_filter.mp hx').2

theorem listRows_branch_of_ne (u : User) (db : List LR) (fl : lrService.ListFilters)
    (hNE : u.branch ≠ "ALL") :
    ∀ x ∈ lrService.listRows u db fl, x.branch = u.branch := by
  intro x hx
  unfold lrService.listRows at hx
  exact branchScopeList_branch_of_ne u fl.branch db hNE x
    (searchScope_subset _ _ (dateScope_subset _ _ ((mem_orderByDateDesc x _).mp hx)))

theorem reportRows_branch_of_ne (u : User) (db : List LR) (fb : Option String)
    (date : String) (hNE : u.branch ≠ "ALL") :
    ∀ x ∈ lrService.reportRows u db fb date, x.branch = u.branch := by
  intro x hx
  unfold lrService.reportRows at hx
  exact branchScopeReport_branch_of_ne u fb db hNE x
    (List.filter_subset' _ ((mem_orderByDateDesc x _).mp hx))

theorem branchScopeOnly_branch_of_ne (u : User) (l : List LR)
    (hNE : u.branch ≠ "ALL") :
    ∀ x ∈ lrService.branchScopeOnly u l, x.branch = u.branch := by
  intro x hx
  unfold lrService.branchScopeOnly at hx
  rw [if_pos hNE] at hx
  simpa using (List.mem_filter.mp hx).2

theorem unassignedRows_branch_of_ne (u : User) (db : List LR)
    (hNE : u.branch ≠ "ALL") :
    ∀ x ∈ lrService.unassignedRows u db, x.branch = u.branch := by
  intro x hx
  unfold lrService.unassignedRows at hx
  exact branchScopeOnly_branch_of_ne u _ hNE x ((mem_orderByDateDesc x _).mp hx)

theorem recentlyAssignedRows_branch_of_ne (u : User) (db : List LR) (cutoff : String)
    (hNE : u.branch ≠ "ALL") :
    ∀ x ∈ lrService.recentlyAssignedRows u db cutoff, x.branch = u.branch := by
  intro x hx
  unfold lrService.recentlyAssignedRows at hx
  exact branchScopeOnly_branch_of_ne u _ hNE x ((mem_orderByDateDesc x _).mp hx)

/-! Concrete sample data used by witnesses. -/

/-- Convenience constructor for a concrete booking row. -/
def mkBooking (rowId branch date dest : String) (charge : ℚ) (ps : PaymentStatus)
    (tid : Option String) (assigned : Option String) : LR :=
  { id := rowId
    lrNumber := rowId
    branch := branch
    date := date
    sender := ⟨"S", "1", "a"⟩
    receiver := ⟨"R", "2", "b"⟩
    shipment := ⟨branch, dest, "", "", ""⟩
    charges := some charge
    paymentStatus := ps
    createdBy := "op"
    transporterId := tid
    transporterName := none
    transporterCommissionPercent := none
    transporterCommissionAmount := none
    netPayableToTransporter := none
    assignedAt := assigned }

/-- A staff operator bound to branch `KPM`. -/
def staffKPM : User := ⟨"u-kpm", "kpm", "KPM Staff", .staff, "KPM", .active⟩

/-- An administrator with the `'ALL'` branch sentinel. -/
def adminALL : User := ⟨"u-adm", "adm", "Admin", .admin, "ALL", .active⟩

/-- A sample store with one `KPM` booking and one `MND` booking. -/
def dbW : List LR :=
  [mkBooking "L1" "KPM" "2024-01-05T10:00:00" "Thoothukudi" 1000 .toPay (some "T1")
     (some "2024-01-05T11:00:00"),
   mkBooking "L2" "MND" "2024-01-06T10:00:00" "Egmore" 500 .paid none none]

/-- Empty caller filters for the list query. -/
def wFL : lrService.ListFilters := ⟨none, none, none⟩

/-- Caller filters selecting branch `MND`. -/
def wFLb : lrService.ListFilters := ⟨some "MND", none, none⟩

/-! The claims. -/

/-- C9: every read operation of the booking service (list, daily report,
transporter report, unassigned list, recently-assigned list) invoked while no
current user is set returns an empty result (empty record list, count 0)
without contacting the remote store and without throwing. -/
theorem C9_reads_without_user_are_empty_and_local
    (db : List LR) (storeFails : Bool) (page limit : Nat)
    (fl : lrService.ListFilters) (fb : Option String) (date cutoff : String)
    (f : lrService.TRFilters) :
    lrService.getLRList none db storeFails page limit fl = ⟨.ok ([], 0), 0⟩
    ∧ lrService.getReportData none db storeFails fb date = ⟨.ok [], 0⟩
    ∧ lrService.getTransporterReportData none db storeFails f = ⟨.ok [], 0⟩
    ∧ lrService.getUnassignedLRs none db storeFails = ⟨.ok [], 0⟩
    ∧ lrService.getRecentlyAssignedLRs none db storeFails cutoff = ⟨.ok [], 0⟩ :=
  ⟨rfl, rfl, rfl, rfl, rfl⟩

/-- C10: when the current user's branch is a specific code (not the `'ALL'`
sentinel), the list, daily-report, unassigned and recently-assigned queries
return only bookings of that branch and any caller-supplied branch filter is
ignored; a caller-supplied branch filter takes effect only when the user's
branch is `'ALL'`.  The trailing conjuncts tie the service entry points to
the row pipelines the first conjuncts quantify over. -/
theorem C10_branch_level_security
    (u : User) (db : List LR) (fl : lrService.ListFilters) (fb fb' : Option String)
    (page limit : Nat) (date cutoff : String) (b : String) :
    (u.branch ≠ "ALL" →
      (∀ lr ∈ lrService.listRows u db fl, lr.branch = u.branch)
      ∧ (∀ lr ∈ lrService.reportRows u db fb date, lr.branch = u.branch)
      ∧ (∀ lr ∈ lrService.unassignedRows u db, lr.branch = u.branch)
      ∧ (∀ lr ∈ lrService.recentlyAssignedRows u db cutoff, lr.branch = u.branch)
      ∧ lrService.listRows u db { fl with branch := fb }
          = lrService.listRows u db { fl with branch := fb' }
      ∧ lrService.reportRows u db fb date = lrService.reportRows u db fb' date)
    ∧ (u.branch = "ALL" → fl.branch = some b → b ≠ "" →
        ∀ lr ∈ lrService.listRows u db fl, lr.branch = b)
    ∧ (u.branch = "ALL" → fb = some b → b ≠ "" → b ≠ "All" →
        ∀ lr ∈ lrService.reportRows u db fb date, lr.branch = b)
    ∧ lrService.getLRList (some u) db false page limit fl
        = ⟨.ok (((lrService.listRows u db fl).drop (page * limit)).take limit,
                (lrService.listRows u db fl).length), 1⟩
    ∧ (∀ lr ∈ ((lrService.listRows u db fl).drop (page * limit)).take limit,
         lr ∈ lrService.listRows u db fl)
    ∧ lrService.getReportData (some u) db false fb date
        = ⟨.ok (lrService.reportRows u db fb date), 1⟩
    ∧ lrService.getUnassignedLRs (some u) db false
        = ⟨.ok (lrService.unassignedRows u db), 1⟩
    ∧ lrService.getRecentlyAssignedLRs (some u) db false cutoff
        = ⟨.ok (lrService.recentlyAssignedRows u db cutoff), 1⟩ := by
  refine ⟨?_, ?_, ?_, rfl, ?_, rfl, rfl, rfl⟩
  · intro hNE
    refine ⟨listRows_branch_of_ne u db fl hNE, reportRows_branch_of_ne u db fb date hNE,
      unassignedRows_branch_of_ne u db hNE,
      recentlyAssignedRows_branch_of_ne u db cutoff hNE, ?_, ?_⟩
    · simp only [lrService.listRows]
      rw [branchScopeList_ignores_filter u fb fb' db hNE]
    · unfold lrService.reportRows
      rw [branchScopeReport_ignores_filter u fb fb' db hNE]
  · intro hALL hfb hb lr hx
    unfold lrService.listRows at hx
    have hmem := searchScope_subset _ _
      (dateScope_subset _ _ ((mem_orderByDateDesc lr _).mp hx))
    rw [hfb] at hmem
    exact branchScopeList_all u db b hALL hb lr hmem
  · intro hALL hfb hb hbAll lr hx
    unfold lrService.reportRows at hx
    have hmem := List.filter_subset' _ ((mem_orderByDateDesc lr _).mp hx)
    rw [hfb] at hmem
    exact branchScopeReport_all u db b hALL hb hbAll lr hmem
  · intro lr hx
    exact List.drop_subset _ _ (List.take_subset _ _ hx)

/-- Witness for C10: the `KPM` staff user sees only `KPM` rows, and the
`ALL` administrator with a caller filter of `MND` sees only `MND` rows. -/
theorem C10_witness :
    (staffKPM.branch ≠ "ALL"
      ∧ ∀ lr ∈ lrService.listRows staffKPM dbW wFL, lr.branch = staffKPM.branch)
    ∧ (adminALL.branch = "ALL" ∧ wFLb.branch = some "MND" ∧ "MND" ≠ ""
      ∧ ∀ lr ∈ lrService.listRows adminALL dbW wFLb, lr.branch = "MND") :=
  ⟨⟨by decide,
    ((C10_branch_level_security staffKPM dbW wFL none none 0 50 "2024-01-05"
        "2024-01-04T10:00:00" "MND").1 (by decide)).1⟩,
   ⟨by decide, by decide, by decide,
    (C10_branch_level_security adminALL dbW wFLb none none 0 50 "2024-01-05"
        "2024-01-04T10:00:00" "MND").2.1 (by decide) (by decide) (by decide)⟩⟩

/-! C1: the settlement report's branch-responsibility scope. -/

theorem trTargetBranchCode_all_some (u : User) (f : lrService.TRFilters) (code : String)
    (hALL : u.branch = "ALL") (hfb : f.branch = some code) (hcAll : code ≠ "All") :
    lrService.trTargetBranchCode u f = some code := by
  unfold lrService.trTargetBranchCode
  rw [if_neg (by simp [hALL]), hfb]
  simp [hcAll]

theorem trTargetBranchCode_all_none (u : User) (f : lrService.TRFilters)
    (hALL : u.branch = "ALL") (hfb : f.branch = none ∨ f.branch = some "All") :
    lrService.trTargetBranchCode u f = none := by
  unfold lrService.trTargetBranchCode
  rw [if_neg (by simp [hALL])]
  rcases hfb with h | h <;> simp [h]

theorem trRows_scoped (u : User) (db : List LR) (f : lrService.TRFilters) (code : String)
    (h : lrService.trTargetBranchCode u f = some code) (hc : code ≠ "") :
    lrService.trRows u db f
      = (orderByDateDesc (db.filter (lrService.trServerFilter f))).filter
          (lrService.trResponsible code f) := by
  unfold lrService.trRows
  rw [h]
  simp [hc]

theorem trRows_unscoped (u : User) (db : List LR) (f : lrService.TRFilters)
    (h : lrService.trTargetBranchCode u f = none) :
    lrService.trRows u db f = orderByDateDesc (db.filter (lrService.trServerFilter f)) := by
  unfold lrService.trRows
  rw [h]

/-- C1: for every booking with an assigned transporter and every branch `B`
used as report scope, the settlement report includes the booking iff its
payment direction is `Paid` and its origin branch equals `B`'s code, or it is
`To Pay` and its destination location name equals `B`'s display name; with no
branch scope, all assigned bookings in the date range are included
unfiltered.  The final conjunct ties the service entry point to the row
pipeline quantified over. -/
theorem C1_settlement_branch_responsibility
    (u : User) (db : List LR) (f : lrService.TRFilters) (lr : LR)
    (hALL : u.branch = "ALL") :
    (∀ code name, f.branch = some code → code ≠ "All" → code ≠ "" →
       f.branchName = some name → name ≠ "" →
       lr ∈ db → lrService.trServerFilter f lr = true →
       (lr ∈ lrService.trRows u db f ↔
          (lr.paymentStatus = .paid ∧ lr.branch = code)
          ∨ (lr.paymentStatus = .toPay ∧ lr.shipment.toLocation = name)))
    ∧ ((f.branch = none ∨ f.branch = some "All") → f.transporterId = none →
        (lr ∈ lrService.trRows u db f ↔
           lr ∈ db ∧ lr.transporterId.isSome = true
           ∧ strLe (f.startDate ++ "T00:00:00") lr.date = true
           ∧ strLe lr.date (f.endDate ++ "T23:59:59") = true))
    ∧ lrService.getTransporterReportData (some u) db false f
        = ⟨.ok (lrService.trRows u db f), 1⟩ := by
  refine ⟨?_, ?_, rfl⟩
  · intro code name hfb hcAll hc hfn hn hmem hserver
    rw [trRows_scoped u db f code (trTargetBranchCode_all_some u f code hALL hfb hcAll) hc]
    rw [List.mem_filter, mem_orderByDateDesc, List.mem_filter]
    simp only [hmem, hserver, and_true, true_and]
    unfold lrService.trResponsible
    rw [hfn]
    cases hps : lr.paymentStatus <;> simp [hps, hn]
  · intro hfb htid
    rw [trRows_unscoped u db f (trTargetBranchCode_all_none u f hALL hfb)]
    rw [mem_orderByDateDesc, List.mem_filter]
    unfold lrService.trServerFilter
    rw [htid]
    simp [and_assoc]

/-- Report filters scoping the settlement report to the branch whose code is
`TTK` and display name `Thoothukudi`. -/
def fC1 : lrService.TRFilters :=
  ⟨none, some "TTK", some "Thoothukudi", "2024-01-01", "2024-12-31"⟩

/-- The spec's scenario booking: charge 1000, payable at destination, origin
branch `KPM`, destination display name `Thoothukudi`, transporter assigned. -/
def bkC1 : LR :=
  mkBooking "L1" "KPM" "2024-06-01T10:00:00" "Thoothukudi" 1000 .toPay (some "T1")
    (some "2024-06-01T11:00:00")

/-- Witness for C1 at the spec's scenario: scoped to the branch displaying
`Thoothukudi`, the `To Pay` booking from `KPM` is included exactly because
its destination matches the scope's display name. -/
theorem C1_witness :
    (adminALL.branch = "ALL" ∧ fC1.branch = some "TTK" ∧ fC1.branchName = some "Thoothukudi"
      ∧ bkC1 ∈ [bkC1] ∧ lrService.trServerFilter fC1 bkC1 = true)
    ∧ (bkC1 ∈ lrService.trRows adminALL [bkC1] fC1 ↔
        (bkC1.paymentStatus = .paid ∧ bkC1.branch = "TTK")
        ∨ (bkC1.paymentStatus = .toPay ∧ bkC1.shipment.toLocation = "Thoothukudi")) :=
  ⟨⟨by decide, by decide, by decide, by decide, by decide⟩,
   (C1_settlement_branch_responsibility adminALL [bkC1] fC1 bkC1 (by decide)).1
     "TTK" "Thoothukudi" (by decide) (by decide) (by decide) (by decide) (by decide)
     (by decide) (by decide)⟩

/-! C3 and C7: the derived settlement fields written by the assignment. -/

theorem contains_of_mem (lrIds : List String) (x : String) (h : x ∈ lrIds) :
    lrIds.contains x = true := by
  simpa using h

/-- Every selected booking appears in the written store with exactly the
update `assignTransporterToLRs` performs on it. -/
theorem assign_mem_updated (db : List LR) (lrIds : List String) (t : Transporter)
    (now : String) (lr : LR) (hlr : lr ∈ db) (hid : lr.id ∈ lrIds) :
    ∃ lr' ∈ lrService.assignTransporterToLRs db lrIds t now,
      lr' = { lr with
                transporterId := some t.id
                transporterName := some t.name
                transporterCommissionPercent := some t.commissionPercent
                transporterCommissionAmount := some (lr.charges.getD 0 * t.commissionPercent / 100)
                netPayableToTransporter :=
                  some (lr.charges.getD 0 - lr.charges.getD 0 * t.commissionPercent / 100)
                assignedAt := some now } := by
  refine ⟨_, List.mem_map_of_mem _ hlr, ?_⟩
  simp only [contains_of_mem lrIds lr.id hid, if_true]

/-- C3: for every booking processed by the transporter assignment, the
written commission equals charge × percent / 100 and the written net equals
charge − commission, so commission + net equals the charge exactly; and a
booking with no assigned transporter has all derived fields absent (the
update preserves this invariant, and creation establishes it). -/
theorem C3_assignment_commission_consistency
    (db : List LR) (lrIds : List String) (t : Transporter) (now : String) :
    (∀ lr ∈ db, lr.id ∈ lrIds →
       ∃ lr' ∈ lrService.assignTransporterToLRs db lrIds t now,
         lr'.id = lr.id ∧ lr'.charges = lr.charges
         ∧ lr'.transporterId = some t.id
         ∧ lr'.transporterCommissionPercent = some t.commissionPercent
         ∧ lr'.transporterCommissionAmount
             = some (lr.charges.getD 0 * t.commissionPercent / 100)
         ∧ lr'.netPayableToTransporter
             = some (lr.charges.getD 0 - lr.charges.getD 0 * t.commissionPercent / 100)
         ∧ lr.charges.getD 0 * t.commissionPercent / 100
             + (lr.charges.getD 0 - lr.charges.getD 0 * t.commissionPercent / 100)
             = lr.charges.getD 0)
    ∧ ((∀ lr ∈ db, lr.transporterId = none →
          lr.transporterCommissionPercent = none
          ∧ lr.transporterCommissionAmount = none
          ∧ lr.netPayableToTransporter = none) →
        ∀ lr' ∈ lrService.assignTransporterToLRs db lrIds t now,
          lr'.transporterId = none →
            lr'.transporterCommissionPercent = none
            ∧ lr'.transporterCommissionAmount = none
            ∧ lr'.netPayableToTransporter = none)
    ∧ (∀ (db' : List LR) (cu : Option User) (rowId now' branch : String)
         (sd rd : SenderReceiverDetails) (sh : ShipmentDetails) (ch : Option ℚ)
         (ps : PaymentStatus),
        (lrService.createLR db' cu rowId now' branch sd rd sh ch ps).transporterId = none
        ∧ (lrService.createLR db' cu rowId now' branch sd rd sh ch ps).transporterCommissionPercent
            = none
        ∧ (lrService.createLR db' cu rowId now' branch sd rd sh ch ps).transporterCommissionAmount
            = none
        ∧ (lrService.createLR db' cu rowId now' branch sd rd sh ch ps).netPayableToTransporter
            = none) := by
  refine ⟨?_, ?_, ?_⟩
  · intro lr hlr hid
    obtain ⟨lr', hmem, heq⟩ := assign_mem_updated db lrIds t now lr hlr hid
    subst heq
    exact ⟨_, hmem, rfl, rfl, rfl, rfl, rfl, rfl, by ring⟩
  · intro hinv lr' hmem' hnone
    obtain ⟨lr, hlr, rfl⟩ := List.mem_map.mp hmem'
    by_cases hc : lrIds.contains lr.id = true
    · exfalso
      simp only [hc, if_true] at hnone
      exact Option.noConfusion hnone
    · simp only [hc, if_false] at hnone ⊢
      exact hinv lr hlr hnone
  · intro db' cu rowId now' branch sd rd sh ch ps
    exact ⟨rfl, rfl, rfl, rfl⟩

/-- An unassigned booking of branch `KPM` with charge 200. -/
def bkC3 : LR := mkBooking "L1" "KPM" "2024-06-01T10:00:00" "Eral" 200 .paid none none

/-- A transporter with a 5% commission rate. -/
def tC3 : Transporter := ⟨"T1", "Fast Movers", 5, .active⟩

/-- Witness for C3: assigning the 5% transporter to the charge-200 booking. -/
theorem C3_witness :
    (bkC3 ∈ [bkC3] ∧ bkC3.id ∈ ["L1"])
    ∧ (∃ lr' ∈ lrService.assignTransporterToLRs [bkC3] ["L1"] tC3 "2024-06-02T00:00:00",
        lr'.id = bkC3.id ∧ lr'.charges = bkC3.charges
        ∧ lr'.transporterId = some tC3.id
        ∧ lr'.transporterCommissionPercent = some tC3.commissionPercent
        ∧ lr'.transporterCommissionAmount
            = some (bkC3.charges.getD 0 * tC3.commissionPercent / 100)
        ∧ lr'.netPayableToTransporter
            = some (bkC3.charges.getD 0 - bkC3.charges.getD 0 * tC3.commissionPercent / 100)
        ∧ bkC3.charges.getD 0 * tC3.commissionPercent / 100
            + (bkC3.charges.getD 0 - bkC3.charges.getD 0 * tC3.commissionPercent / 100)
            = bkC3.charges.getD 0) :=
  ⟨⟨by decide, by decide⟩,
   (C3_assignment_commission_consistency [bkC3] ["L1"] tC3 "2024-06-02T00:00:00").1
     bkC3 (by decide) (by decide)⟩

/-- Round half away from zero to 2 decimal places — the numeric policy the
spec prescribes in §4.2 (a spec-side definition, used to compare against the
code's behaviour). -/
def round2 (q : ℚ) : ℚ :=
  if 0 ≤ q then (⌊q * 100 + 1 / 2⌋ : ℚ) / 100
  else -((⌊-q * 100 + 1 / 2⌋ : ℚ) / 100)

/-- A booking whose charge 100.01 at 5% yields the commission 5.0005. -/
def bkC7 : LR :=
  mkBooking "L9" "KPM" "2024-06-01T10:00:00" "Eral" (10001 / 100) .paid none none

/-- A transporter with a 5% commission rate. -/
def tC7 : Transporter := ⟨"T2", "Slow Cargo", 5, .active⟩

/-- C7 counterexample: assigning a 5% transporter to a booking with charge
100.01 writes the commission 5.0005, which is not a value rounded (half away
from zero) to 2 decimal places — the code performs no rounding at all. -/
theorem C7_counterexample :
    ((lrService.assignTransporterToLRs [bkC7] ["L9"] tC7 "T").map
        (fun lr => lr.transporterCommissionAmount)) = [some (10001 / 2000 : ℚ)]
    ∧ round2 (10001 / 2000 : ℚ) ≠ (10001 / 2000 : ℚ) := by
  constructor
  · simp only [lrService.assignTransporterToLRs, bkC7, tC7, mkBooking, List.map_map,
      List.map_cons, List.map_nil, Function.comp]
    norm_num
  · simp only [round2, if_pos (by norm_num : (0 : ℚ) ≤ 10001 / 2000)]
    norm_num

/-- C7 (amended): the assignment operation applies no rounding: the written
commission is exactly charge × percent / 100 at full precision, the written
net is exactly charge − commission, and charge = commission + net reconciles
exactly — so no one-cent mismatch can arise, but neither value is rounded to
2 decimal places. -/
theorem C7_amended_exact_unrounded
    (db : List LR) (lrIds : List String) (t : Transporter) (now : String) :
    ∀ lr ∈ db, lr.id ∈ lrIds →
      ∃ lr' ∈ lrService.assignTransporterToLRs db lrIds t now,
        ∃ c n, lr'.transporterCommissionAmount = some c
          ∧ lr'.netPayableToTransporter = some n
          ∧ c = lr.charges.getD 0 * t.commissionPercent / 100
          ∧ n = lr.charges.getD 0 - c
          ∧ c + n = lr.charges.getD 0 := by
  intro lr hlr hid
  obtain ⟨lr', hmem, heq⟩ := assign_mem_updated db lrIds t now lr hlr hid
  subst heq
  exact ⟨_, hmem, _, _, rfl, rfl, rfl, rfl, by ring⟩

/-- Witness for the amended C7 at the 100.01-charge booking. -/
theorem C7_witness :
    (bkC7 ∈ [bkC7] ∧ bkC7.id ∈ ["L9"])
    ∧ (∃ lr' ∈ lrService.assignTransporterToLRs [bkC7] ["L9"] tC7 "T",
        ∃ c n, lr'.transporterCommissionAmount = some c
          ∧ lr'.netPayableToTransporter = some n
          ∧ c = bkC7.charges.getD 0 * tC7.commissionPercent / 100
          ∧ n = bkC7.charges.getD 0 - c
          ∧ c + n = bkC7.charges.getD 0) :=
  ⟨⟨List.mem_singleton.mpr rfl, by decide⟩,
   C7_amended_exact_unrounded [bkC7] ["L9"] tC7 "T" bkC7 (List.mem_singleton.mpr rfl)
     (by decide)⟩

/-! C2: session restore and the active flag. -/

/-- An inactive profile row for branch `KPM`. -/
def inactiveKPM : User := ⟨"u-ina", "ina", "Inactive Op", .staff, "KPM", .inactive⟩

/-- C2 counterexample: a valid remote token for `u-ina` together with a
profile row whose status is inactive — restore loads the inactive identity
into the Session Store (and does not sign out), contradicting the claim that
an inactive identity is never loaded by restore. -/
theorem C2_counterexample :
    inactiveKPM.status = .inactive
    ∧ AuthContext.checkSessionGlobally (some "u-ina") [inactiveKPM]
        = ⟨some inactiveKPM, false, true⟩ :=
  ⟨rfl, by decide⟩

/-- C2 (amended): session restoration verifies only that a profile row
exists for the token's user id — the active flag is not re-checked on
restore (active status is validated at login time only) — so whenever the
profile lookup returns a row, restore loads it regardless of its status. -/
theorem C2_amended_restore_ignores_active_flag
    (uid : String) (profiles : List User) (p : User)
    (h : authService.getUserProfile profiles uid = some p) :
    AuthContext.checkSessionGlobally (some uid) profiles = ⟨some p, false, true⟩ := by
  simp only [AuthContext.checkSessionGlobally]
  rw [h]

/-- Witness for the amended C2 at the inactive profile. -/
theorem C2_witness :
    authService.getUserProfile [inactiveKPM] "u-ina" = some inactiveKPM
    ∧ AuthContext.checkSessionGlobally (some "u-ina") [inactiveKPM]
        = ⟨some inactiveKPM, false, true⟩ :=
  ⟨by decide,
   C2_amended_restore_ignores_active_flag "u-ina" [inactiveKPM] inactiveKPM (by decide)⟩

/-! C4: what the idle-timer fire handler actually does. -/

/-- Tab A's state when its timer fires at t = 10:00 while tab B stamped the
shared activity timestamp at t = 9:30 (570000 ms). -/
def idleC4 : AuthContext.IdleTabState := ⟨some 570000, some staffKPM, true, false⟩

/-- C4 counterexample: the timer fires at t = 600000 ms although the shared
timestamp (570000 ms) is well inside the timeout window, yet the handler
logs out and does not reschedule — contradicting the claimed re-check. -/
theorem C4_counterexample :
    600000 - 570000 < AuthContext.TIMEOUT_MS
    ∧ AuthContext.onIdleTimerFire idleC4 600000 = ⟨none, none, false, false⟩ :=
  ⟨by decide, rfl⟩

/-- C4 (amended): when the per-tab idle timer fires, logout is forced
unconditionally — the handler reads neither the persisted cross-tab
timestamp nor the clock and never reschedules; the persisted timestamp is
consulted only by the pre-boot sweep in the storage client, which wipes the
auth token exactly when the persisted activity is older than the timeout
window. -/
theorem C4_amended_unconditional_logout
    (s : AuthContext.IdleTabState) (now last : Nat) (tokenPresent : Bool) :
    AuthContext.onIdleTimerFire s now = ⟨none, none, false, false⟩
    ∧ AuthContext.preBootSweep (some last) now tokenPresent
        = (if now - last > AuthContext.TIMEOUT_MS then (false, none)
           else (tokenPresent, some last)) :=
  ⟨rfl, rfl⟩

/-! C5: bounded, definite initialization. -/

theorem initStep_preserves (s : AuthContext.InitState) (e : AuthContext.InitEvent)
    (h : s.loading = false ∧ s.failSafeArmed = false) :
    (AuthContext.initStep s e).loading = false
    ∧ (AuthContext.initStep s e).failSafeArmed = false := by
  cases e with
  | failSafeFire =>
      simp only [AuthContext.initStep]
      rw [if_neg (by simp [h.2])]
      exact h
  | promiseResolved p => exact ⟨rfl, rfl⟩
  | promiseThrew => exact ⟨rfl, rfl⟩

theorem initRun_settled (s : AuthContext.InitState)
    (h : s.loading = false ∧ s.failSafeArmed = false)
    (evs : List AuthContext.InitEvent) :
    (List.foldl AuthContext.initStep s evs).loading = false
    ∧ (List.foldl AuthContext.initStep s evs).failSafeArmed = false := by
  induction evs generalizing s with
  | nil => exact h
  | cons e t ih => exact ih _ (initStep_preserves s e h)

/-- C5: initialization always terminates in a definite state: after any
nonempty sequence of bootstrap events, `loading = false`; the fail-safe
firing (which the model places at `FAILSAFE_MS` = 5000 ms after start)
forces the unauthenticated state; a resolution applies its profile and a
thrown error clears the session, each with `loading = false` — so the
caller is never left in a perpetual loading condition. -/
theorem C5_bounded_initialization (evs : List AuthContext.InitEvent) (hne : evs ≠ []) :
    (List.foldl AuthContext.initStep AuthContext.initStart evs).loading = false
    ∧ AuthContext.initStep AuthContext.initStart .failSafeFire = ⟨none, false, false⟩
    ∧ (∀ p, AuthContext.initStep AuthContext.initStart (.promiseResolved p)
          = ⟨p, false, false⟩)
    ∧ AuthContext.initStep AuthContext.initStart .promiseThrew = ⟨none, false, false⟩
    ∧ AuthContext.FAILSAFE_MS = 5000 := by
  refine ⟨?_, rfl, fun p => rfl, rfl, rfl⟩
  obtain ⟨e, t, rfl⟩ := List.exists_cons_of_ne_nil hne
  rw [List.foldl_cons]
  refine (initRun_settled _ ?_ t).1
  cases e with
  | failSafeFire => exact ⟨rfl, rfl⟩
  | promiseResolved p => exact ⟨rfl, rfl⟩
  | promiseThrew => exact ⟨rfl, rfl⟩

/-- Witness for C5: the never-resolving run, consisting of the fail-safe
firing alone. -/
theorem C5_witness :
    ([AuthContext.InitEvent.failSafeFire] : List AuthContext.InitEvent) ≠ []
    ∧ ((List.foldl AuthContext.initStep AuthContext.initStart
          [AuthContext.InitEvent.failSafeFire]).loading = false
       ∧ AuthContext.initStep AuthContext.initStart .failSafeFire = ⟨none, false, false⟩
       ∧ (∀ p, AuthContext.initStep AuthContext.initStart (.promiseResolved p)
             = ⟨p, false, false⟩)
       ∧ AuthContext.initStep AuthContext.initStart .promiseThrew = ⟨none, false, false⟩
       ∧ AuthContext.FAILSAFE_MS = 5000) :=
  ⟨by decide, C5_bounded_initialization [AuthContext.InitEvent.failSafeFire] (by decide)⟩

/-! C6: login with a missing or inactive profile. -/

/-- C6: `login` with credentials the remote provider accepts but whose
profile record is missing or inactive rejects with an authentication error,
invokes remote sign-out before rejecting, and leaves the Session Store
identity empty. -/
theorem C6_login_inactive_rejection (b : authService.AuthBackend)
    (hok : b.signInOk = true)
    (hbad : ∀ p ∈ b.profiles, p.id = b.authUserId → p.status = .inactive) :
    (authService.login b).outcome = .err
    ∧ (authService.login b).thrown = some .inactiveOrMissing
    ∧ (authService.login b).remoteSignOutCalled = true
    ∧ (AuthContext.contextLogin none b).fst = none := by
  have hfil : b.profiles.filter
      (fun u => u.id == b.authUserId && u.status == AccountStatus.active) = [] := by
    rw [List.filter_eq_nil_iff]
    intro p hp
    by_cases hid : p.id = b.authUserId
    · simp [hid, hbad p hp hid]
    · simp [hid]
  have hlogin : authService.login b = ⟨.err, some .inactiveOrMissing, true⟩ := by
    unfold authService.login authService.findSingle
    rw [hfil]
    simp [hok]
  refine ⟨by rw [hlogin], by rw [hlogin], by rw [hlogin], ?_⟩
  unfold AuthContext.contextLogin
  rw [hlogin]

/-- A backend accepting the credentials of the inactive `u-ina` profile. -/
def bC6 : authService.AuthBackend := ⟨true, "u-ina", [inactiveKPM]⟩

/-- Witness for C6 at the inactive profile. -/
theorem C6_witness :
    (bC6.signInOk = true
      ∧ ∀ p ∈ bC6.profiles, p.id = bC6.authUserId → p.status = .inactive)
    ∧ ((authService.login bC6).outcome = .err
       ∧ (authService.login bC6).thrown = some .inactiveOrMissing
       ∧ (authService.login bC6).remoteSignOutCalled = true
       ∧ (AuthContext.contextLogin none bC6).fst = none) :=
  ⟨⟨by decide, by decide⟩, C6_login_inactive_rejection bC6 (by decide) (by decide)⟩

/-! C8: no redundant profile fetch. -/

theorem getUserProfile_id (profiles : List User) (uid : String) (p : User)
    (h : authService.getUserProfile profiles uid = some p) : p.id = uid := by
  unfold authService.getUserProfile authService.findSingle at h
  rcases hf : profiles.filter (fun u => u.id == uid) with _ | ⟨a, _ | ⟨b, t⟩⟩ <;>
    rw [hf] at h
  · exact Option.noConfusion h
  · have ha : a ∈ profiles.filter (fun u => u.id == uid) := by
      rw [hf]; exact List.mem_cons_self a []
    have hid : (a.id == uid) = true := (List.mem_filter.mp ha).2
    injection h with h'
    subst h'
    simpa using hid
  · exact Option.noConfusion h

theorem listener_loaded_no_change (profiles : List User) (uid : String)
    (s : AuthContext.ListenerState) (hs : s.lastUserId = some uid) :
    ∀ evs : List AuthContext.AuthEvent,
      (∀ e ∈ evs, e = AuthContext.AuthEvent.signedIn (some uid)
        ∨ e = AuthContext.AuthEvent.tokenRefreshed (some uid)) →
      List.foldl (AuthContext.onAuthStateChange profiles) s evs = s := by
  intro evs
  induction evs with
  | nil => intro _; rfl
  | cons e t ih =>
      intro hevs
      have hstep : AuthContext.onAuthStateChange profiles s e = s := by
        rcases hevs e (List.mem_cons_self e t) with rfl | rfl
        · simp only [AuthContext.onAuthStateChange]
          rw [if_neg (by simp [hs])]
        · rfl
      rw [List.foldl_cons, hstep]
      exact ih (fun e' he' => hevs e' (List.mem_cons_of_mem _ he'))

/-- C8: for every sequence of auth-state events carrying the same identity
id as the identity already loaded in the Session Store, the profile fetch is
invoked at most once (in fact never): the handler compares the event's user
id against the last-seen id and performs no fetch when they are equal; and
even starting from a state where the id is not loaded, a successful profile
fetch makes every later event for the same id a no-op, bounding the fetches
at one. -/
theorem C8_no_redundant_profile_fetch (profiles : List User)
    (s : AuthContext.ListenerState) (uid : String)
    (evs : List AuthContext.AuthEvent) :
    (s.lastUserId = some uid →
       (∀ e ∈ evs, e = AuthContext.AuthEvent.signedIn (some uid)
         ∨ e = AuthContext.AuthEvent.tokenRefreshed (some uid)) →
       List.foldl (AuthContext.onAuthStateChange profiles) s evs = s)
    ∧ (s.lastUserId = some uid →
        AuthContext.onAuthStateChange profiles s (.signedIn (some uid)) = s)
    ∧ (∀ p, authService.getUserProfile profiles uid = some p →
        (∀ e ∈ evs, e = AuthContext.AuthEvent.signedIn (some uid)) →
        (List.foldl (AuthContext.onAuthStateChange profiles) s evs).fetchCount
          ≤ s.fetchCount + 1) := by
  refine ⟨?_, ?_, ?_⟩
  · intro hs hevs
    exact listener_loaded_no_change profiles uid s hs evs hevs
  · intro hs
    simp only [AuthContext.onAuthStateChange]
    rw [if_neg (by simp [hs])]
  · intro p hp
    induction evs generalizing s with
    | nil => intro _; exact Nat.le_succ _
    | cons e t ih =>
        intro hevs
        have he : e = AuthContext.AuthEvent.signedIn (some uid) :=
          hevs e (List.mem_cons_self e t)
        subst he
        by_cases hguard : s.lastUserId = some uid
        · have hstep : AuthContext.onAuthStateChange profiles s
              (.signedIn (some uid)) = s := by
            simp only [AuthContext.onAuthStateChange]
            rw [if_neg (by simp [hguard])]
          rw [List.foldl_cons, hstep]
          exact ih s (fun e' he' => hevs e' (List.mem_cons_of_mem _ he'))
        · have hstep : AuthContext.onAuthStateChange profiles s
              (.signedIn (some uid))
              = ⟨some p, some p.id, s.fetchCount + 1⟩ := by
            have h1 : AuthContext.onAuthStateChange profiles s (.signedIn (some uid))
                = if s.lastUserId ≠ some uid then
                    match authService.getUserProfile profiles uid with
                    | some q =>
                        (⟨some q, some q.id, s.fetchCount + 1⟩ :
                          AuthContext.ListenerState)
                    | none =>
                        AuthContext.clearListener { s with fetchCount := s.fetchCount + 1 }
                  else s := rfl
            rw [h1, if_pos hguard, hp]
          rw [List.foldl_cons, hstep]
          have hrest : List.foldl (AuthContext.onAuthStateChange profiles)
              (⟨some p, some p.id, s.fetchCount + 1⟩ : AuthContext.ListenerState) t
              = ⟨some p, some p.id, s.fetchCount + 1⟩ := by
            refine listener_loaded_no_change profiles uid _ ?_ t ?_
            · simp [getUserProfile_id profiles uid p hp]
            · exact fun e' he' => Or.inl (hevs e' (List.mem_cons_of_mem _ he'))
          rw [hrest]

/-- Listener state with the `u-kpm` identity already loaded, one fetch done. -/
def sC8 : AuthContext.ListenerState := ⟨some staffKPM, some "u-kpm", 1⟩

/-- Two repeated `SIGNED_IN` events for the already-loaded identity. -/
def evsC8 : List AuthContext.AuthEvent :=
  [.signedIn (some "u-kpm"), .signedIn (some "u-kpm")]

/-- Witness for C8: repeated `SIGNED_IN` events for the loaded identity
leave the listener state — including its fetch counter — unchanged. -/
theorem C8_witness :
    (sC8.lastUserId = some "u-kpm"
      ∧ (∀ e ∈ evsC8, e = AuthContext.AuthEvent.signedIn (some "u-kpm")
          ∨ e = AuthContext.AuthEvent.tokenRefreshed (some "u-kpm")))
    ∧ List.foldl (AuthContext.onAuthStateChange [staffKPM]) sC8 evsC8 = sC8 :=
  ⟨⟨by decide, by decide⟩,
   (C8_no_redundant_profile_fetch [staffKPM] sC8 "u-kpm" evsC8).1 (by decide) (by decide)⟩

end LRVerify
